import Mathlib

/-!
# Verification of the magic-wormhole rendezvous WebSocket protocol

A shallow embedding of `src/wormhole/server/rendezvous_websocket.py`
(class `WebSocketRendezvous`), together with the mailbox/directory
("Channel"/"App") backend behaviour that this file calls into.  The
backend classes themselves are not part of the provided source, so their
operations (`claim_channel`, `get_claimed`, `find_available_channelid`,
`add_listener`, `add_message`, `release`) are modelled from the spec,
each marked `Modelled from the spec:` in its doc comment.

Modelling conventions:
* JSON field values carried by inbound commands are modelled as JSON
  scalars (strings and integers); nested objects/arrays inside inbound
  fields do not influence any control path of the handlers.
* The `server_tx` timestamp that `send` stamps onto every outbound
  message is wall-clock time and is omitted from outbound messages.
* Python exceptions: the protocol's own `Error` class is caught by
  `onMessage` and turned into an `error` response; `KeyError` (from
  `msg["channelid"]` on a missing key) and `AssertionError` escape the
  handler uncaught, which tears the connection down — modelled by the
  `crash` result.
* State is threaded explicitly; each per-connection `WebSocketRendezvous`
  instance is a `Session` keyed by a session id (`Nat`), and the global
  rendezvous app registry is the `apps` association list.
-/

namespace Wormhole

/-- A JSON scalar value, as carried by fields of inbound client messages. -/
inductive JVal where
  | str : String → JVal
  | num : Int → JVal
deriving Repr, DecidableEq

/-- An inbound JSON message: an association list of fields. -/
abbrev Msg := List (String × JVal)

/-- A JSON value carried by a field of an outbound server response:
a scalar, an echoed inbound object (for `orig`), or a list of channel
ids (for `channelids`). -/
inductive OVal where
  | str : String → OVal
  | num : Int → OVal
  | obj : List (String × JVal) → OVal
  | arr : List String → OVal
deriving Repr, DecidableEq

/-- Embedding of inbound scalars into outbound values. -/
def JVal.toO : JVal → OVal
  | .str s => .str s
  | .num n => .num n

/-- First-match association-list lookup (Python `dict` access). -/
def lookupA {α β : Type} [DecidableEq α] (k : α) : List (α × β) → Option β
  | [] => none
  | (k', v) :: rest => if k' = k then some v else lookupA k rest

/-- Association-list update: replace the binding of `k`, or append it. -/
def setA {α β : Type} [DecidableEq α] (k : α) (v : β) : List (α × β) → List (α × β)
  | [] => [(k, v)]
  | (k', v') :: rest => if k' = k then (k, v) :: rest else (k', v') :: setA k v rest

/-- Association-list deletion of the first binding of `k` (Python `del`). -/
def removeA {α β : Type} [DecidableEq α] (k : α) : List (α × β) → List (α × β)
  | [] => []
  | (k', v') :: rest => if k' = k then rest else (k', v') :: removeA k rest

/-- Remove the first occurrence of `x` from a list. -/
def removeOne {α : Type} [DecidableEq α] (x : α) : List α → List α
  | [] => []
  | y :: ys => if y = x then ys else y :: removeOne x ys

/-- A message stored in a channel's log: `add_message(side, phase, body,
server_rx, msgid)`. -/
structure ChanMessage where
  side : JVal
  phase : JVal
  body : JVal
  server_rx : Nat
  msgid : Option JVal
deriving Repr, DecidableEq

/-- Modelled from the spec: the event dictionary a Channel hands to each
subscriber's delivery callback — the stored message's fields (`phase`,
`body`, sender `side`, server receive time, and the client's optional
correlation id, echoed back but otherwise unused). -/
def ChanMessage.toEvent (m : ChanMessage) : List (String × JVal) :=
  [("phase", m.phase), ("body", m.body), ("side", m.side),
   ("server_rx", .num m.server_rx)]
  ++ (match m.msgid with | some i => [("id", i)] | none => [])

/-- A Mailbox / Channel: reference-counted claims (a multiset of sides,
one entry per successful claim), the append-only message log, and the
subscriber set (session ids of watchers, in registration order). -/
structure Mailbox where
  claims : List JVal
  messages : List ChanMessage
  subscribers : List Nat
deriving Repr, DecidableEq

/-- A Directory partition for one application id: its channel-id →
Mailbox map. -/
structure App where
  mailboxes : List (String × Mailbox)
deriving Repr, DecidableEq

/-- Per-connection protocol state (`WebSocketRendezvous.__init__`):
`_app` (we record the bound appid key), `_side`, `_did_allocate`, and
the keys of `_channels` (channel ids this session has claimed). -/
structure Session where
  app : Option JVal
  side : Option JVal
  did_allocate : Bool
  channels : List String
deriving Repr, DecidableEq

/-- The whole server: the rendezvous app registry and all live sessions. -/
structure ServerState where
  apps : List (JVal × App)
  sessions : List (Nat × Session)
deriving Repr, DecidableEq

def ServerState.getSessionD (st : ServerState) (sid : Nat) : Session :=
  (lookupA sid st.sessions).getD ⟨none, none, false, []⟩

def ServerState.setSession (st : ServerState) (sid : Nat) (s : Session) :
    ServerState :=
  { st with sessions := setA sid s st.sessions }

/-- `rendezvous.get_app(appid)`: the partition for `appid`, an empty one
if it was never touched (the real registry creates it on demand). -/
def ServerState.getApp (st : ServerState) (k : JVal) : App :=
  (lookupA k st.apps).getD ⟨[]⟩

def ServerState.setApp (st : ServerState) (k : JVal) (a : App) : ServerState :=
  { st with apps := setA k a st.apps }

/-- Modelled from the spec: `App.claim_channel(channelid, side)` —
creates the Mailbox if absent and adds one claim entry for `side` to
its claim multiset, returning the updated partition. -/
def App.claim_channel (a : App) (channelid : String) (side : JVal) : App :=
  match lookupA channelid a.mailboxes with
  | some mb =>
      ⟨setA channelid { mb with claims := mb.claims ++ [side] } a.mailboxes⟩
  | none => ⟨setA channelid ⟨[side], [], []⟩ a.mailboxes⟩

/-- Modelled from the spec: `App.get_claimed()` — every channel id whose
claim multiset has exactly one distinct side (waiting for a partner). -/
def App.get_claimed (a : App) : List String :=
  (a.mailboxes.filter (fun p => p.2.claims.dedup.length == 1)).map Prod.fst

/-- Fuelled search for the smallest free numeric id, starting at `n`. -/
def findAvailAux (keys : List String) : Nat → Nat → String
  | 0, n => toString n
  | fuel+1, n =>
      if toString n ∈ keys then findAvailAux keys fuel (n+1) else toString n

/-- Modelled from the spec: `App.find_available_channelid()` — the
smallest positive integer, formatted as a string, not currently a key of
the partition's mailbox map.  `length + 1` steps always suffice. -/
def App.find_available_channelid (a : App) : String :=
  findAvailAux (a.mailboxes.map Prod.fst) (a.mailboxes.length + 1) 1

/-- Modelled from the spec: `Channel.add_listener(...)` — registers the
session as a subscriber and returns the current backlog for replay. -/
def Mailbox.add_listener (mb : Mailbox) (sid : Nat) :
    Mailbox × List ChanMessage :=
  ({ mb with subscribers := mb.subscribers ++ [sid] }, mb.messages)

/-- Modelled from the spec: `Channel.add_message(side, phase, body,
server_rx, msgid)` — appends a stamped message to the log; the handler
then fans it out to the subscriber snapshot. -/
def Mailbox.add_message (mb : Mailbox) (side phase body : JVal)
    (server_rx : Nat) (msgid : Option JVal) : Mailbox × ChanMessage :=
  let m : ChanMessage := ⟨side, phase, body, server_rx, msgid⟩
  ({ mb with messages := mb.messages ++ [m] }, m)

/-- An outbound response: `send(mtype, **kwargs)` (the wall-clock
`server_tx` stamp is omitted). -/
structure OutMsg where
  mtype : String
  fields : List (String × OVal)
deriving Repr, DecidableEq

def errorOut (explain : String) (orig : Msg) : OutMsg :=
  ⟨"error", [("error", .str explain), ("orig", .obj orig)]⟩

def ackOut (v : JVal) : OutMsg := ⟨"ack", [("id", v.toO)]⟩

def pongOut (v : JVal) : OutMsg := ⟨"pong", [("pong", v.toO)]⟩

def channelidsOut (ids : List String) : OutMsg :=
  ⟨"channelids", [("channelids", .arr ids)]⟩

def allocatedOut (cid : String) : OutMsg :=
  ⟨"allocated", [("channelid", .str cid)]⟩

def messageOut (cid : String) (m : ChanMessage) : OutMsg :=
  ⟨"message", [("channelid", .str cid), ("message", .obj m.toEvent)]⟩

def releasedOut (status : String) : OutMsg :=
  ⟨"released", [("status", .str status)]⟩

/-- A Python exception raised inside a handler: the protocol's own
`Error` (caught by `onMessage`), a `KeyError` from `msg[...]` on an
absent key, or an `AssertionError` — the latter two escape uncaught. -/
inductive PyErr where
  | error (explain : String)
  | keyError (key : String)
  | assertionError
deriving Repr, DecidableEq

/-- Outputs: (destination session id, response) in emission order. -/
abbrev Outs := List (Nat × OutMsg)

/-- Result of one handler: normal return, or an exception carrying the
state, outputs and close-signals accumulated up to the raise point. -/
inductive HRes where
  | ok (st : ServerState) (out : Outs) (closes : List Nat)
  | exn (e : PyErr) (st : ServerState) (out : Outs) (closes : List Nat)
deriving Repr, DecidableEq

/-- `handle_ping`. -/
def handle_ping (st : ServerState) (sid : Nat) (msg : Msg) : HRes :=
  match lookupA "ping" msg with
  | none => .exn (.error "ping requires 'ping'") st [] []
  | some v => .ok st [(sid, pongOut v)] []

/-- `handle_bind`: `self._app = rendezvous.get_app(msg["appid"])` is
modelled by recording the appid key; the partition itself is reached via
`getApp` on demand. -/
def handle_bind (st : ServerState) (sid : Nat) (msg : Msg) : HRes :=
  let sess := st.getSessionD sid
  if sess.app.isSome || sess.side.isSome then
    .exn (.error "already bound") st [] []
  else
    match lookupA "appid" msg with
    | none => .exn (.error "bind requires 'appid'") st [] []
    | some appid =>
      match lookupA "side" msg with
      | none => .exn (.error "bind requires 'side'") st [] []
      | some side =>
        .ok (st.setSession sid { sess with app := some appid, side := some side })
          [] []

/-- Sort a list of channel-id strings ascending (Python `sorted`). -/
def sortStr (l : List String) : List String := l.insertionSort (· ≤ ·)

/-- `handle_list`. -/
def handle_list (st : ServerState) (sid : Nat) : HRes :=
  let sess := st.getSessionD sid
  let a := st.getApp (sess.app.getD (.str ""))
  .ok st [(sid, channelidsOut (sortStr a.get_claimed))] []

/-- `handle_allocate`. -/
def handle_allocate (st : ServerState) (sid : Nat) : HRes :=
  let sess := st.getSessionD sid
  if sess.did_allocate then
    .exn (.error "You already allocated one channel, don't be greedy") st [] []
  else
    let appkey := sess.app.getD (.str "")
    let a := st.getApp appkey
    let channelid := a.find_available_channelid
    let a' := a.claim_channel channelid (sess.side.getD (.str ""))
    let st' := (st.setApp appkey a').setSession sid
      { sess with did_allocate := true, channels := sess.channels ++ [channelid] }
    .ok st' [(sid, allocatedOut channelid)] []

/-- `handle_claim`.  The `assert isinstance(channelid, str)` sits before
the membership test, so a non-string channel id is an uncaught
`AssertionError` here. -/
def handle_claim (st : ServerState) (sid : Nat) (msg : Msg) : HRes :=
  let sess := st.getSessionD sid
  match lookupA "channelid" msg with
  | none => .exn (.error "claim requires 'channelid'") st [] []
  | some (.num _) => .exn .assertionError st [] []
  | some (.str channelid) =>
    if channelid ∈ sess.channels then .ok st [] []
    else
      let appkey := sess.app.getD (.str "")
      let a' := (st.getApp appkey).claim_channel channelid (sess.side.getD (.str ""))
      let st' := (st.setApp appkey a').setSession sid
        { sess with channels := sess.channels ++ [channelid] }
      .ok st' [] []

/-- `channelid not in self._channels`, where `channelid` is an arbitrary
JSON value and the keys are strings: yields the claimed channel id when
the test passes.  (In `watch`/`add`/`release` the string assertion sits
after this test and hence can never fire.) -/
def claimedStr (sess : Session) : JVal → Option String
  | .str s => if s ∈ sess.channels then some s else none
  | _ => none

/-- `handle_watch`.  `msg["channelid"]` raises an uncaught `KeyError`
when the field is absent.  The Python session holds a direct reference
to the Channel object; in every reachable state the mailbox is present
in the partition, so the `getD` default is never consulted. -/
def handle_watch (st : ServerState) (sid : Nat) (msg : Msg) : HRes :=
  let sess := st.getSessionD sid
  match lookupA "channelid" msg with
  | none => .exn (.keyError "channelid") st [] []
  | some v =>
    match claimedStr sess v with
    | none => .exn (.error "must claim channel before watching") st [] []
    | some channelid =>
      let appkey := sess.app.getD (.str "")
      let a := st.getApp appkey
      let mb := (lookupA channelid a.mailboxes).getD ⟨[], [], []⟩
      let p := mb.add_listener sid
      let st' := st.setApp appkey ⟨setA channelid p.1 a.mailboxes⟩
      .ok st' (p.2.map (fun m => (sid, messageOut channelid m))) []

/-- `handle_add`: the claimed-channel test precedes the `phase`/`body`
field checks; the append is fanned out to the subscriber snapshot. -/
def handle_add (st : ServerState) (sid : Nat) (msg : Msg) (server_rx : Nat) :
    HRes :=
  let sess := st.getSessionD sid
  match lookupA "channelid" msg with
  | none => .exn (.keyError "channelid") st [] []
  | some v =>
    match claimedStr sess v with
    | none => .exn (.error "must claim channel before adding") st [] []
    | some channelid =>
      let appkey := sess.app.getD (.str "")
      let a := st.getApp appkey
      let mb := (lookupA channelid a.mailboxes).getD ⟨[], [], []⟩
      match lookupA "phase" msg with
      | none => .exn (.error "missing 'phase'") st [] []
      | some phase =>
        match lookupA "body" msg with
        | none => .exn (.error "missing 'body'") st [] []
        | some body =>
          let msgid := lookupA "id" msg
          let p := mb.add_message (sess.side.getD (.str "")) phase body
            server_rx msgid
          let st' := st.setApp appkey ⟨setA channelid p.1 a.mailboxes⟩
          .ok st' (mb.subscribers.map (fun w => (w, messageOut channelid p.2)))
            []

/-- `handle_release`: removes one claim entry for this side (modelled
from the spec for `Channel.release`); when the multiset empties, the
Mailbox is deleted and its subscribers receive close signals. -/
def handle_release (st : ServerState) (sid : Nat) (msg : Msg) : HRes :=
  let sess := st.getSessionD sid
  match lookupA "channelid" msg with
  | none => .exn (.keyError "channelid") st [] []
  | some v =>
    match claimedStr sess v with
    | none => .exn (.error "must claim channel before releasing") st [] []
    | some channelid =>
      let appkey := sess.app.getD (.str "")
      let a := st.getApp appkey
      let mb := (lookupA channelid a.mailboxes).getD ⟨[], [], []⟩
      let claims' := removeOne (sess.side.getD (.str "")) mb.claims
      let deleted := claims'.isEmpty
      let a' : App :=
        if deleted then ⟨removeA channelid a.mailboxes⟩
        else ⟨setA channelid { mb with claims := claims' } a.mailboxes⟩
      let st' := (st.setApp appkey a').setSession sid
        { sess with channels := removeOne channelid sess.channels }
      .ok st' [(sid, releasedOut (if deleted then "deleted" else "waiting"))]
        (if deleted then mb.subscribers else [])

/-- Outcome of one inbound frame: normal processing (possibly ending in
an `error` response), or an uncaught exception killing the connection. -/
inductive StepResult where
  | ok (st : ServerState) (out : Outs) (closes : List Nat)
  | crash (st : ServerState) (out : Outs) (e : PyErr)
deriving Repr, DecidableEq

def StepResult.state : StepResult → ServerState
  | .ok st _ _ => st
  | .crash st _ _ => st

def StepResult.outs : StepResult → Outs
  | .ok _ out _ => out
  | .crash _ out _ => out

/-- The `ack` sent for any message carrying a correlation id. -/
def ackPfx (sid : Nat) (msg : Msg) : Outs :=
  match lookupA "id" msg with
  | some v => [(sid, ackOut v)]
  | none => []

/-- The dispatch chain of `onMessage` after the ack: `ping` and `bind`
first, then the must-bind guard, then the bound commands. -/
def dispatch (st : ServerState) (sid : Nat) (msg : Msg) (server_rx : Nat)
    (tv : JVal) : HRes :=
  if tv = .str "ping" then handle_ping st sid msg
  else if tv = .str "bind" then handle_bind st sid msg
  else if (st.getSessionD sid).app.isNone then
    .exn (.error "Must bind first") st [] []
  else if tv = .str "list" then handle_list st sid
  else if tv = .str "allocate" then handle_allocate st sid
  else if tv = .str "claim" then handle_claim st sid msg
  else if tv = .str "watch" then handle_watch st sid msg
  else if tv = .str "add" then handle_add st sid msg server_rx
  else if tv = .str "release" then handle_release st sid msg
  else .exn (.error "Unknown type") st [] []

/-- `onMessage`: the missing-`type` check precedes the ack; a protocol
`Error` is caught and answered with `error{error, orig}`; `KeyError` and
`AssertionError` escape uncaught (`crash`). -/
def onMessage (st : ServerState) (sid : Nat) (msg : Msg) (server_rx : Nat) :
    StepResult :=
  match lookupA "type" msg with
  | none => .ok st [(sid, errorOut "missing 'type'" msg)] []
  | some tv =>
    match dispatch st sid msg server_rx tv with
    | .ok st' out cl => .ok st' (ackPfx sid msg ++ out) cl
    | .exn (.error e) st' out cl =>
        .ok st' (ackPfx sid msg ++ out ++ [(sid, errorOut e msg)]) cl
    | .exn e st' out cl => .crash st' (ackPfx sid msg ++ out) e

/-- `onClose(wasClean, code, reason)` is `pass`: no server-side effect. -/
def onClose (st : ServerState) : ServerState := st

/-- Connection teardown: `onClose` runs (a no-op) and the per-connection
protocol object is discarded; nothing else happens. -/
def disconnect (st : ServerState) (sid : Nat) : ServerState :=
  let st' := onClose st
  { st' with sessions := removeA sid st'.sessions }

/-- All outputs a given session receives, in order. -/
def outputsTo (sid : Nat) (outs : Outs) : List OutMsg :=
  (outs.filter (fun p => p.1 == sid)).map Prod.snd

/-- The `message`-type outputs a given session receives, in order. -/
def messagesTo (sid : Nat) (outs : Outs) : List OutMsg :=
  (outputsTo sid outs).filter (fun o => o.mtype == "message")

/-- The `error`-type outputs a given session receives, in order. -/
def errorResponses (sid : Nat) (outs : Outs) : List OutMsg :=
  (outputsTo sid outs).filter (fun o => o.mtype == "error")

/-- An `add` command to be sent on some channel by some session. -/
structure AddCmd where
  sender : Nat
  phase : JVal
  body : JVal
  rx : Nat
  msgid : Option JVal
deriving Repr, DecidableEq

/-- The wire message of an `add` command on channel `c`. -/
def AddCmd.toMsg (c : String) (a : AddCmd) : Msg :=
  [("type", .str "add"), ("channelid", .str c), ("phase", a.phase),
   ("body", a.body)]
  ++ (match a.msgid with | some i => [("id", i)] | none => [])

/-- The log entry an `add` command produces, given the sender's session. -/
def AddCmd.toChanMessage (st : ServerState) (a : AddCmd) : ChanMessage :=
  ⟨(st.getSessionD a.sender).side.getD (.str ""), a.phase, a.body, a.rx,
   a.msgid⟩

/-- Run a sequence of `add` commands on channel `c`, collecting outputs;
stops if a step crashes (never reached under this file's hypotheses). -/
def runAdds (c : String) : ServerState → List AddCmd → ServerState × Outs
  | st, [] => (st, [])
  | st, a :: rest =>
    match onMessage st a.sender (a.toMsg c) a.rx with
    | .ok st' out _ =>
        let p := runAdds c st' rest
        (p.1, out ++ p.2)
    | .crash st' out _ => (st', out)

/-- The wire message of a `watch` command on channel `c`. -/
def watchMsg (c : String) : Msg :=
  [("type", .str "watch"), ("channelid", .str c)]

/-- The state a handler leaves behind, raise or return. -/
def HRes.state : HRes → ServerState
  | .ok st _ _ => st
  | .exn _ st _ _ => st

/-- The frame was answered normally (no uncaught exception, no close
signals) and the session received exactly one `error` response, echoing
the offending message verbatim. -/
def respondsError (st : ServerState) (sid : Nat) (msg : Msg) (rx : Nat) :
    Prop :=
  ∃ st' out e, onMessage st sid msg rx = .ok st' out [] ∧
    errorResponses sid out = [errorOut e msg]

/-! Concrete fixture states used by witnesses and counterexamples. -/

/-- One freshly connected, unbound session. -/
def stUnbound : ServerState := ⟨[], [(0, ⟨none, none, false, []⟩)]⟩

/-- A session bound to app "appA" with side "sideA", no claims. -/
def sessBound : Session := ⟨some (.str "appA"), some (.str "sideA"), false, []⟩

def stBound : ServerState := ⟨[], [(0, sessBound)]⟩

/-- A bound session that already used its one allocation. -/
def stAllocated : ServerState :=
  ⟨[(.str "appA", ⟨[("1", ⟨[.str "sideA"], [], []⟩)]⟩)],
   [(0, ⟨some (.str "appA"), some (.str "sideA"), true, ["1"]⟩)]⟩

/-- A one-side-claimed mailbox. -/
def mbW : Mailbox := ⟨[.str "sideA"], [], []⟩

def sessClaimed : Session :=
  ⟨some (.str "appA"), some (.str "sideA"), false, ["ch"]⟩

/-- Session 0 has claimed channel "ch" of app "appA". -/
def stClaimed : ServerState :=
  ⟨[(.str "appA", ⟨[("ch", mbW)]⟩)], [(0, sessClaimed)]⟩

/-- A message already sitting in a mailbox log. -/
def m0 : ChanMessage := ⟨.str "sideB", .str "pake", .str "aa", 5, none⟩

/-- Sessions 0 (side A) and 1 (side B) have both claimed channel "ch",
whose log already holds `m0`; nobody watches yet. -/
def stTwo : ServerState :=
  ⟨[(.str "appA", ⟨[("ch", ⟨[.str "sideA", .str "sideB"], [m0], []⟩)]⟩)],
   [(0, sessClaimed), (1, ⟨some (.str "appA"), some (.str "sideB"), false, ["ch"]⟩)]⟩

/-! ## Helper lemmas about the association-list state primitives -/

theorem lookupA_setA_self {α β : Type} [DecidableEq α] (k : α) (v : β)
    (l : List (α × β)) : lookupA k (setA k v l) = some v := by
  induction l with
  | nil => simp [setA, lookupA]
  | cons p rest ih =>
    obtain ⟨k', v'⟩ := p
    by_cases h : k' = k
    · simp [setA, h, lookupA]
    · simp [setA, h, lookupA, ih]

theorem lookupA_setA_ne {α β : Type} [DecidableEq α] {k k' : α} (v : β)
    (l : List (α × β)) (h : k' ≠ k) :
    lookupA k' (setA k v l) = lookupA k' l := by
  have hkk : ¬ k = k' := fun hh => h hh.symm
  induction l with
  | nil => simp [setA, lookupA, hkk]
  | cons p rest ih =>
    obtain ⟨k₀, v₀⟩ := p
    by_cases h0 : k₀ = k
    · subst h0
      simp [setA, lookupA, hkk]
    · simp only [setA, if_neg h0, lookupA]
      by_cases h1 : k₀ = k'
      · simp [h1]
      · simp [h1, ih]

theorem lookupA_eq_none {α β : Type} [DecidableEq α] (k : α)
    (l : List (α × β)) (h : k ∉ l.map Prod.fst) : lookupA k l = none := by
  induction l with
  | nil => simp [lookupA]
  | cons p rest ih =>
    obtain ⟨k', v'⟩ := p
    simp only [List.map_cons, List.mem_cons] at h
    push_neg at h
    have hne : ¬ k' = k := fun hh => h.1 hh.symm
    simp [lookupA, hne, ih h.2]

theorem lookupA_removeA_self {α β : Type} [DecidableEq α] (k : α)
    (l : List (α × β)) (h : (l.map Prod.fst).Nodup) :
    lookupA k (removeA k l) = none := by
  induction l with
  | nil => simp [removeA, lookupA]
  | cons p rest ih =>
    obtain ⟨k', v'⟩ := p
    simp only [List.map_cons, List.nodup_cons] at h
    by_cases h0 : k' = k
    · subst h0
      simp only [removeA, if_pos rfl]
      exact lookupA_eq_none k' rest h.1
    · have hne : ¬ k' = k := h0
      simp [removeA, hne, lookupA, ih h.2]

theorem getSessionD_setSession (st : ServerState) (sid sid' : Nat)
    (s : Session) :
    (st.setSession sid s).getSessionD sid'
      = if sid' = sid then s else st.getSessionD sid' := by
  by_cases h : sid' = sid
  · subst h
    simp [ServerState.setSession, ServerState.getSessionD, lookupA_setA_self]
  · simp [h, ServerState.setSession, ServerState.getSessionD,
      lookupA_setA_ne _ _ h]

theorem getSessionD_setApp (st : ServerState) (k : JVal) (a : App)
    (sid : Nat) : (st.setApp k a).getSessionD sid = st.getSessionD sid := rfl

theorem getApp_setApp_self (st : ServerState) (k : JVal) (a : App) :
    (st.setApp k a).getApp k = a := by
  simp [ServerState.setApp, ServerState.getApp, lookupA_setA_self]

theorem getApp_setSession (st : ServerState) (sid : Nat) (s : Session)
    (k : JVal) : (st.setSession sid s).getApp k = st.getApp k := rfl

theorem sessions_setApp (st : ServerState) (k : JVal) (a : App) :
    (st.setApp k a).sessions = st.sessions := rfl

/-! ## Helper lemmas about output selection -/

theorem outputsTo_append (s : Nat) (xs ys : Outs) :
    outputsTo s (xs ++ ys) = outputsTo s xs ++ outputsTo s ys := by
  simp [outputsTo, List.filter_append]

theorem messagesTo_append (s : Nat) (xs ys : Outs) :
    messagesTo s (xs ++ ys) = messagesTo s xs ++ messagesTo s ys := by
  simp [messagesTo, outputsTo_append, List.filter_append]

theorem messagesTo_nil (s : Nat) : messagesTo s [] = [] := rfl

theorem messagesTo_cons (s w : Nat) (o : OutMsg) (rest : Outs) :
    messagesTo s ((w, o) :: rest)
      = (if w = s ∧ o.mtype = "message" then [o] else []) ++ messagesTo s rest := by
  by_cases hw : w = s
  · by_cases hm : o.mtype = "message"
    · simp [messagesTo, outputsTo, hw, hm]
    · simp [messagesTo, outputsTo, hw, hm]
  · simp [messagesTo, outputsTo, hw]

theorem messagesTo_ackPfx (s sid : Nat) (msg : Msg) :
    messagesTo s (ackPfx sid msg) = [] := by
  cases h : lookupA "id" msg with
  | none => simp [ackPfx, h, messagesTo, outputsTo]
  | some v =>
    simp only [ackPfx, h]
    rw [show ([(sid, ackOut v)] : Outs) = (sid, ackOut v) :: [] from rfl,
      messagesTo_cons]
    simp [ackOut, messagesTo_nil]

theorem messagesTo_fanout (s : Nat) (subs : List Nat) (o : OutMsg)
    (ho : o.mtype = "message") :
    messagesTo s (subs.map (fun w => (w, o)))
      = List.replicate (subs.count s) o := by
  induction subs with
  | nil => simp [messagesTo, outputsTo]
  | cons w ws ih =>
    rw [List.map_cons, messagesTo_cons, ih]
    by_cases hw : w = s
    · subst hw
      simp [List.count_cons, ho, List.replicate_succ]
    · have : (w == s) = false := by simp [hw]
      simp [List.count_cons, this, hw]

theorem messagesTo_replay (s : Nat) (c : String) (l : List ChanMessage) :
    messagesTo s (l.map (fun m => (s, messageOut c m))) = l.map (messageOut c) := by
  induction l with
  | nil => simp [messagesTo, outputsTo]
  | cons m rest ih =>
    rw [List.map_cons, messagesTo_cons, ih]
    simp [messageOut]

theorem getSessionD_eq (st : ServerState) (sid : Nat) (sess : Session)
    (hs : lookupA sid st.sessions = some sess) : st.getSessionD sid = sess := by
  simp [ServerState.getSessionD, hs]

/-! ## Claim theorems -/

theorem toChanMessage_setApp (st : ServerState) (k : JVal) (ap : App)
    (ad : AddCmd) :
    AddCmd.toChanMessage (st.setApp k ap) ad = AddCmd.toChanMessage st ad := rfl

/-- One valid `add` on channel `c`: the message is appended to the log
and fanned out once to each subscriber, everything else untouched. -/
theorem add_step (st : ServerState) (c : String) (a : JVal) (ad : AddCmd)
    (sess' : Session) (mb : Mailbox)
    (h1 : lookupA ad.sender st.sessions = some sess')
    (h2 : sess'.app = some a) (h3 : c ∈ sess'.channels)
    (h4 : lookupA c (st.getApp a).mailboxes = some mb) :
    onMessage st ad.sender (ad.toMsg c) ad.rx
      = .ok (st.setApp a ⟨setA c
            { mb with messages := mb.messages ++ [ad.toChanMessage st] }
            (st.getApp a).mailboxes⟩)
          (ackPfx ad.sender (ad.toMsg c)
            ++ mb.subscribers.map
                (fun w => (w, messageOut c (ad.toChanMessage st))))
          [] := by
  have hsess : st.getSessionD ad.sender = sess' := getSessionD_eq _ _ _ h1
  have ht : lookupA "type" (ad.toMsg c) = some (.str "add") := by
    simp [AddCmd.toMsg, lookupA]
  have hcid : lookupA "channelid" (ad.toMsg c) = some (.str c) := by
    simp [AddCmd.toMsg, lookupA]
  have hph : lookupA "phase" (ad.toMsg c) = some ad.phase := by
    simp [AddCmd.toMsg, lookupA]
  have hbd : lookupA "body" (ad.toMsg c) = some ad.body := by
    simp [AddCmd.toMsg, lookupA]
  have hid : lookupA "id" (ad.toMsg c) = ad.msgid := by
    cases hm : ad.msgid <;> simp [AddCmd.toMsg, lookupA, hm]
  unfold onMessage
  rw [ht]
  unfold dispatch
  simp [hsess, h2, handle_add, hcid, claimedStr, h3, h4, hph, hbd, hid,
    Mailbox.add_message, AddCmd.toChanMessage]

/-- Running valid `add`s after the watcher is subscribed delivers to it
exactly the appended messages, in order, one copy each. -/
theorem runAdds_messagesTo (c : String) (s : Nat) (a : JVal)
    (adds : List AddCmd) :
    ∀ (st : ServerState) (mb : Mailbox),
    (∀ ad ∈ adds, ∃ sess', lookupA ad.sender st.sessions = some sess'
        ∧ sess'.app = some a ∧ c ∈ sess'.channels) →
    lookupA c (st.getApp a).mailboxes = some mb →
    mb.subscribers.count s = 1 →
    messagesTo s (runAdds c st adds).2
      = adds.map (fun ad => messageOut c (ad.toChanMessage st)) := by
  induction adds with
  | nil =>
    intro st mb _ _ _
    simp [runAdds, messagesTo, outputsTo]
  | cons ad rest ih =>
    intro st mb hsess hmb hcnt
    obtain ⟨sess', hs1, hs2, hs3⟩ := hsess ad (List.mem_cons_self _ _)
    have hstep := add_step st c a ad sess' mb hs1 hs2 hs3 hmb
    simp only [runAdds, hstep]
    rw [messagesTo_append, messagesTo_append, messagesTo_ackPfx,
      messagesTo_fanout s mb.subscribers _ rfl, hcnt]
    have hmb₁ : lookupA c
        ((st.setApp a ⟨setA c
            { mb with messages := mb.messages ++ [ad.toChanMessage st] }
            (st.getApp a).mailboxes⟩).getApp a).mailboxes
        = some { mb with messages := mb.messages ++ [ad.toChanMessage st] } := by
      rw [getApp_setApp_self]
      exact lookupA_setA_self c _ (st.getApp a).mailboxes
    rw [ih (st.setApp a ⟨setA c
          { mb with messages := mb.messages ++ [ad.toChanMessage st] }
          (st.getApp a).mailboxes⟩)
        { mb with messages := mb.messages ++ [ad.toChanMessage st] }
        (fun ad' had' => hsess ad' (List.mem_cons_of_mem _ had')) hmb₁ hcnt]
    simp [toChanMessage_setApp]

/-- A `watch` on a claimed channel: the session is registered as a
subscriber and the whole backlog is replayed to it, in order. -/
theorem watch_step (st : ServerState) (s : Nat) (a : JVal) (c : String)
    (sess : Session) (mb : Mailbox) (rx : Nat)
    (hs : lookupA s st.sessions = some sess)
    (happ : sess.app = some a)
    (hc : c ∈ sess.channels)
    (hmb : lookupA c (st.getApp a).mailboxes = some mb) :
    onMessage st s (watchMsg c) rx
      = .ok (st.setApp a ⟨setA c
            { mb with subscribers := mb.subscribers ++ [s] }
            (st.getApp a).mailboxes⟩)
          (mb.messages.map (fun m => (s, messageOut c m)))
          [] := by
  have hsess := getSessionD_eq st s sess hs
  have ht : lookupA "type" (watchMsg c) = some (.str "watch") := by
    simp [watchMsg, lookupA]
  have hcid : lookupA "channelid" (watchMsg c) = some (.str c) := by
    simp [watchMsg, lookupA]
  have hid : lookupA "id" (watchMsg c) = none := by
    simp [watchMsg, lookupA]
  unfold onMessage
  rw [ht]
  unfold dispatch
  simp [hsess, happ, handle_watch, hcid, claimedStr, hc, hmb,
    Mailbox.add_listener, ackPfx, hid]

/-- C1: a `watch` on a claimed channel atomically replays the whole
backlog to the session in arrival order and registers it as a
subscriber; for every subsequent sequence of valid `add`s on that
channel (by any claiming sessions), the watcher's `message` stream is
exactly backlog-then-appends, in order, nothing lost, nothing doubled. -/
theorem watch_replay_then_forward
    (st : ServerState) (s : Nat) (a : JVal) (c : String)
    (sess : Session) (mb : Mailbox) (adds : List AddCmd) (rx : Nat)
    (hs : lookupA s st.sessions = some sess)
    (happ : sess.app = some a)
    (hc : c ∈ sess.channels)
    (hmb : lookupA c (st.getApp a).mailboxes = some mb)
    (hsub : s ∉ mb.subscribers)
    (hadds : ∀ ad ∈ adds, ∃ sess', lookupA ad.sender st.sessions = some sess'
        ∧ sess'.app = some a ∧ c ∈ sess'.channels) :
    ∃ st₁,
      onMessage st s (watchMsg c) rx
        = .ok st₁ (mb.messages.map (fun m => (s, messageOut c m))) []
      ∧ messagesTo s ((mb.messages.map (fun m => (s, messageOut c m)))
            ++ (runAdds c st₁ adds).2)
        = (mb.messages ++ adds.map (fun ad => ad.toChanMessage st)).map
            (messageOut c) := by
  refine ⟨_, watch_step st s a c sess mb rx hs happ hc hmb, ?_⟩
  rw [messagesTo_append, messagesTo_replay]
  have hmb₁ : lookupA c
      ((st.setApp a ⟨setA c
          { mb with subscribers := mb.subscribers ++ [s] }
          (st.getApp a).mailboxes⟩).getApp a).mailboxes
      = some { mb with subscribers := mb.subscribers ++ [s] } := by
    rw [getApp_setApp_self]
    exact lookupA_setA_self c _ (st.getApp a).mailboxes
  have hcnt : ({ mb with subscribers := mb.subscribers ++ [s] }
      : Mailbox).subscribers.count s = 1 := by
    simp [List.count_append, List.count_eq_zero.mpr hsub]
  rw [runAdds_messagesTo c s a adds
      (st.setApp a ⟨setA c
          { mb with subscribers := mb.subscribers ++ [s] }
          (st.getApp a).mailboxes⟩)
      { mb with subscribers := mb.subscribers ++ [s] }
      hadds hmb₁ hcnt]
  simp [toChanMessage_setApp]

/-- Witness for C1: one backlog message and one fresh `add` by the
other side reach the watcher in exactly that order. -/
theorem watch_replay_then_forward_witness :
    ∃ st₁,
      onMessage stTwo 0 (watchMsg "ch") 9
        = .ok st₁ ([m0].map (fun m => (0, messageOut "ch" m))) []
      ∧ messagesTo 0 (([m0].map (fun m => (0, messageOut "ch" m)))
            ++ (runAdds "ch" st₁ [⟨1, .str "ph", .str "bd", 11, none⟩]).2)
        = ([m0] ++ ([⟨1, .str "ph", .str "bd", 11, none⟩] : List AddCmd).map
              (fun ad => ad.toChanMessage stTwo)).map (messageOut "ch") :=
  watch_replay_then_forward stTwo 0 (.str "appA") "ch" sessClaimed
    ⟨[.str "sideA", .str "sideB"], [m0], []⟩
    [⟨1, .str "ph", .str "bd", 11, none⟩] 9
    (by decide) (by decide) (by decide) (by decide) (by decide)
    (by intro ad had
        simp at had
        subst had
        exact ⟨⟨some (.str "appA"), some (.str "sideB"), false, ["ch"]⟩,
          by decide, by decide, by decide⟩)

/-- C7: `claim{channelId}` is idempotent per session: a second `claim`
on a locally-claimed channel id produces no error, no response beyond
the ack, and leaves the whole server state (session claim map and every
Mailbox's claim multiset included) exactly unchanged. -/
theorem claim_idempotent
    (st : ServerState) (sid : Nat) (msg : Msg) (rx : Nat)
    (sess : Session) (a : JVal) (c : String)
    (hs : lookupA sid st.sessions = some sess)
    (happ : sess.app = some a)
    (ht : lookupA "type" msg = some (.str "claim"))
    (hcid : lookupA "channelid" msg = some (.str c))
    (hc : c ∈ sess.channels) :
    onMessage st sid msg rx = .ok st (ackPfx sid msg) [] := by
  have hsess : st.getSessionD sid = sess := getSessionD_eq st sid sess hs
  unfold onMessage
  rw [ht]
  unfold dispatch
  simp [hsess, happ, handle_claim, hcid, hc]

/-- Witness for C7 at a concrete claimed channel. -/
theorem claim_idempotent_witness :
    onMessage stClaimed 0 [("type", .str "claim"), ("channelid", .str "ch")] 0
      = .ok stClaimed
          (ackPfx 0 [("type", .str "claim"), ("channelid", .str "ch")]) [] :=
  claim_idempotent stClaimed 0 _ 0 sessClaimed (.str "appA") "ch"
    (by decide) (by decide) (by decide) (by decide) (by decide)

/-- C9: connection teardown releases nothing: `onClose` is a no-op, and
discarding the per-connection session object leaves the whole app
registry — every Mailbox's claim multiset, message log, and each
Directory's mailbox map — unchanged. -/
theorem close_releases_nothing (st : ServerState) (sid : Nat) :
    (disconnect st sid).apps = st.apps
    ∧ (∀ k, (disconnect st sid).getApp k = st.getApp k)
    ∧ onClose st = st :=
  ⟨rfl, fun _ => rfl, rfl⟩

/-- C4 counterexample: a message that carries a correlation id but no
`type` gets an `error` response and no ack at all — the missing-`type`
check precedes the ack, so the claim's "ack before any other response,
regardless of outcome" fails on this input. -/
theorem ack_missing_type_cex :
    onMessage stUnbound 0 [("id", .num 1)] 0
      = .ok stUnbound [(0, errorOut "missing 'type'" [("id", .num 1)])] []
    ∧ ((onMessage stUnbound 0 [("id", .num 1)] 0).outs.filter
        (fun o => o.2.mtype == "ack")) = [] := by
  decide

/-- C4 amended: for every inbound message that carries both a `type`
field and a correlation id `id`, the `ack{id}` response is emitted
before every other output of that message, whatever the outcome
(error responses and uncaught exceptions included). -/
theorem ack_first
    (st : ServerState) (sid : Nat) (msg : Msg) (rx : Nat) (tv idv : JVal)
    (ht : lookupA "type" msg = some tv)
    (hid : lookupA "id" msg = some idv) :
    ∃ rest, (onMessage st sid msg rx).outs = (sid, ackOut idv) :: rest := by
  have hack : ackPfx sid msg = [(sid, ackOut idv)] := by simp [ackPfx, hid]
  unfold onMessage
  rw [ht]
  cases hd : dispatch st sid msg rx tv with
  | ok st' out cl =>
    exact ⟨out, by simp [hd, StepResult.outs, hack]⟩
  | exn e st' out cl =>
    cases e with
    | error ex =>
      exact ⟨out ++ [(sid, errorOut ex msg)], by simp [hd, StepResult.outs, hack]⟩
    | keyError k => exact ⟨out, by simp [hd, StepResult.outs, hack]⟩
    | assertionError => exact ⟨out, by simp [hd, StepResult.outs, hack]⟩

/-- Witness for amended C4: a ping carrying an id is acked first. -/
theorem ack_first_witness :
    ∃ rest, (onMessage stUnbound 0
        [("type", .str "ping"), ("ping", .num 7), ("id", .num 3)] 0).outs
      = (0, ackOut (.num 3)) :: rest :=
  ack_first stUnbound 0 _ 0 (.str "ping") (.num 3) (by decide) (by decide)

theorem getSessionD_congr {st₁ st₂ : ServerState}
    (h : st₁.sessions = st₂.sessions) (sid : Nat) :
    st₁.getSessionD sid = st₂.getSessionD sid := by
  simp [ServerState.getSessionD, h]

theorem ping_state (st : ServerState) (sid : Nat) (msg : Msg) :
    (handle_ping st sid msg).state = st := by
  unfold handle_ping
  cases h : lookupA "ping" msg <;> simp [HRes.state]

theorem bind_alloc (st : ServerState) (sid : Nat) (msg : Msg) (sid' : Nat) :
    ((handle_bind st sid msg).state.getSessionD sid').did_allocate
      = (st.getSessionD sid').did_allocate := by
  unfold handle_bind
  by_cases hb : (st.getSessionD sid).app.isSome || (st.getSessionD sid).side.isSome
  · simp [hb, HRes.state]
  · simp only [hb, Bool.false_eq_true, if_false]
    cases ha : lookupA "appid" msg
    · simp [HRes.state]
    cases hs2 : lookupA "side" msg
    · simp [HRes.state]
    simp only [HRes.state]
    rw [getSessionD_setSession]
    by_cases hss : sid' = sid <;> simp [hss]

theorem allocate_alloc (st : ServerState) (sid sid' : Nat)
    (h : (st.getSessionD sid').did_allocate = true) :
    ((handle_allocate st sid).state.getSessionD sid').did_allocate = true := by
  unfold handle_allocate
  by_cases hda : (st.getSessionD sid).did_allocate
  · simpa [hda, HRes.state] using h
  · simp only [hda, Bool.false_eq_true, if_false, HRes.state]
    rw [getSessionD_setSession]
    by_cases hss : sid' = sid
    · simp [hss]
    · simpa [hss] using h

theorem claim_alloc (st : ServerState) (sid : Nat) (msg : Msg) (sid' : Nat) :
    ((handle_claim st sid msg).state.getSessionD sid').did_allocate
      = (st.getSessionD sid').did_allocate := by
  unfold handle_claim
  cases hcid : lookupA "channelid" msg with
  | none => simp [HRes.state]
  | some v =>
    cases v with
    | num n => simp [HRes.state]
    | str c =>
      by_cases hc : c ∈ (st.getSessionD sid).channels
      · simp [hc, HRes.state]
      · simp only [hc, if_false, HRes.state, if_neg]
        rw [getSessionD_setSession]
        by_cases hss : sid' = sid <;> simp [hss, getSessionD_setApp]

theorem watch_sessions (st : ServerState) (sid : Nat) (msg : Msg) :
    ((handle_watch st sid msg).state).sessions = st.sessions := by
  unfold handle_watch
  cases hcid : lookupA "channelid" msg with
  | none => simp [HRes.state]
  | some v =>
    cases hcl : claimedStr (st.getSessionD sid) v with
    | none => simp [hcl, HRes.state]
    | some c => simp [hcl, HRes.state, ServerState.setApp]

theorem add_sessions (st : ServerState) (sid : Nat) (msg : Msg) (rx : Nat) :
    ((handle_add st sid msg rx).state).sessions = st.sessions := by
  unfold handle_add
  cases hcid : lookupA "channelid" msg with
  | none => simp [HRes.state]
  | some v =>
    cases hcl : claimedStr (st.getSessionD sid) v with
    | none => simp [hcl, HRes.state]
    | some c =>
      cases hph : lookupA "phase" msg with
      | none => simp [hcl, hph, HRes.state]
      | some ph =>
        cases hbd : lookupA "body" msg with
        | none => simp [hcl, hph, hbd, HRes.state]
        | some bd => simp [hcl, hph, hbd, HRes.state, ServerState.setApp]

theorem release_alloc (st : ServerState) (sid : Nat) (msg : Msg) (sid' : Nat) :
    ((handle_release st sid msg).state.getSessionD sid').did_allocate
      = (st.getSessionD sid').did_allocate := by
  unfold handle_release
  cases hcid : lookupA "channelid" msg with
  | none => simp [HRes.state]
  | some v =>
    cases hcl : claimedStr (st.getSessionD sid) v with
    | none => simp [hcl, HRes.state]
    | some c =>
      simp only [hcl, HRes.state]
      rw [getSessionD_setSession]
      by_cases hss : sid' = sid <;> simp [hss, getSessionD_setApp]

theorem dispatch_alloc (st : ServerState) (sid : Nat) (msg : Msg) (rx : Nat)
    (tv : JVal) (sid' : Nat)
    (h : (st.getSessionD sid').did_allocate = true) :
    ((dispatch st sid msg rx tv).state.getSessionD sid').did_allocate = true := by
  unfold dispatch
  split_ifs with h1 h2 h3 h4 h5 h6 h7 h8 h9
  · rw [ping_state]; exact h
  · rw [bind_alloc]; exact h
  · exact h
  · exact h
  · exact allocate_alloc st sid sid' h
  · rw [claim_alloc]; exact h
  · rw [getSessionD_congr (watch_sessions st sid msg) sid']; exact h
  · rw [getSessionD_congr (add_sessions st sid msg rx) sid']; exact h
  · rw [release_alloc]; exact h
  · exact h

theorem state_onMessage (st : ServerState) (sid : Nat) (msg : Msg) (rx : Nat) :
    (onMessage st sid msg rx).state
      = (match lookupA "type" msg with
         | none => st
         | some tv => (dispatch st sid msg rx tv).state) := by
  unfold onMessage
  cases ht : lookupA "type" msg with
  | none => simp [StepResult.state]
  | some tv =>
    cases hd : dispatch st sid msg rx tv with
    | ok st' out cl => simp [hd, StepResult.state, HRes.state]
    | exn e st' out cl =>
      cases e <;> simp [hd, StepResult.state, HRes.state]

/-- C5 counterexample: the first `allocate` of a bound session answers
with a response of type `"allocated"` carrying field `"channelid"` —
not a response of type `"nameplate"` as the claim states. -/
theorem allocate_type_cex :
    onMessage stBound 0 [("type", .str "allocate")] 0
      = .ok stAllocated [(0, allocatedOut "1")] []
    ∧ ((onMessage stBound 0 [("type", .str "allocate")] 0).outs.filter
        (fun o => o.2.mtype == "nameplate")) = []
    ∧ allocatedOut "1" = ⟨"allocated", [("channelid", .str "1")]⟩ := by
  decide

/-- C5 amended: a bound session's first `allocate` succeeds with a
single response of type `"allocated"` carrying the allocated channel id,
which is recorded as claimed on the session (and the allocation flag is
set); any later `allocate` on that session fails with the allocate-limit
error; and no command whatsoever resets a session's allocation flag. -/
theorem allocate_semantics :
    (∀ (st : ServerState) (sid : Nat) (msg : Msg) (rx : Nat)
        (sess : Session) (a : JVal),
      lookupA sid st.sessions = some sess → sess.app = some a →
      sess.did_allocate = false →
      lookupA "type" msg = some (.str "allocate") →
      onMessage st sid msg rx
        = .ok
            ((st.setApp a
                ((st.getApp a).claim_channel
                  (st.getApp a).find_available_channelid
                  (sess.side.getD (.str "")))).setSession sid
              { sess with
                  did_allocate := true
                  channels := sess.channels ++ [(st.getApp a).find_available_channelid] })
            (ackPfx sid msg
              ++ [(sid, allocatedOut (st.getApp a).find_available_channelid)])
            []
        ∧ ((onMessage st sid msg rx).state.getSessionD sid).channels
            = sess.channels ++ [(st.getApp a).find_available_channelid]
        ∧ ((onMessage st sid msg rx).state.getSessionD sid).did_allocate = true)
    ∧ (∀ (st : ServerState) (sid : Nat) (msg : Msg) (rx : Nat)
        (sess : Session) (a : JVal),
      lookupA sid st.sessions = some sess → sess.app = some a →
      sess.did_allocate = true →
      lookupA "type" msg = some (.str "allocate") →
      onMessage st sid msg rx
        = .ok st (ackPfx sid msg
            ++ [(sid, errorOut
                  "You already allocated one channel, don't be greedy" msg)]) [])
    ∧ (∀ (st : ServerState) (sid : Nat) (msg : Msg) (rx : Nat) (sid' : Nat),
      (st.getSessionD sid').did_allocate = true →
      ((onMessage st sid msg rx).state.getSessionD sid').did_allocate = true) := by
  refine ⟨?_, ?_, ?_⟩
  · intro st sid msg rx sess a hs happ hda ht
    have hsess : st.getSessionD sid = sess := getSessionD_eq st sid sess hs
    have h1 : onMessage st sid msg rx
        = .ok
            ((st.setApp a
                ((st.getApp a).claim_channel
                  (st.getApp a).find_available_channelid
                  (sess.side.getD (.str "")))).setSession sid
              { sess with
                  did_allocate := true
                  channels := sess.channels ++ [(st.getApp a).find_available_channelid] })
            (ackPfx sid msg
              ++ [(sid, allocatedOut (st.getApp a).find_available_channelid)])
            [] := by
      unfold onMessage
      rw [ht]
      unfold dispatch
      simp [hsess, happ, handle_allocate, hda]
    refine ⟨h1, ?_, ?_⟩
    · rw [h1]
      simp [StepResult.state, getSessionD_setSession]
    · rw [h1]
      simp [StepResult.state, getSessionD_setSession]
  · intro st sid msg rx sess a hs happ hda ht
    have hsess : st.getSessionD sid = sess := getSessionD_eq st sid sess hs
    unfold onMessage
    rw [ht]
    unfold dispatch
    simp [hsess, happ, handle_allocate, hda]
  · intro st sid msg rx sid' h
    rw [state_onMessage]
    cases ht : lookupA "type" msg with
    | none => exact h
    | some tv => exact dispatch_alloc st sid msg rx tv sid' h

/-- Witness for amended C5: a concrete first allocation succeeds with
the `"allocated"` response; a second one on the already-allocated
session fails; the allocation flag survives an unrelated command. -/
theorem allocate_semantics_witness :
    (onMessage stBound 0 [("type", .str "allocate")] 0
      = .ok
          ((stBound.setApp (.str "appA")
              ((stBound.getApp (.str "appA")).claim_channel
                (stBound.getApp (.str "appA")).find_available_channelid
                (sessBound.side.getD (.str "")))).setSession 0
            { sessBound with
                did_allocate := true
                channels := sessBound.channels ++ [(stBound.getApp (.str "appA")).find_available_channelid] })
          (ackPfx 0 [("type", .str "allocate")]
            ++ [(0, allocatedOut
                  (stBound.getApp (.str "appA")).find_available_channelid)])
          [])
    ∧ (onMessage stAllocated 0 [("type", .str "allocate")] 0
      = .ok stAllocated (ackPfx 0 [("type", .str "allocate")]
          ++ [(0, errorOut
                "You already allocated one channel, don't be greedy"
                [("type", .str "allocate")])]) [])
    ∧ ((onMessage stAllocated 0 [("type", .str "ping"), ("ping", .num 1)] 0
          ).state.getSessionD 0).did_allocate = true :=
  ⟨(allocate_semantics.1 stBound 0 _ 0 sessBound (.str "appA")
      (by decide) (by decide) (by decide) (by decide)).1,
   allocate_semantics.2.1 stAllocated 0 _ 0
      ⟨some (.str "appA"), some (.str "sideA"), true, ["1"]⟩ (.str "appA")
      (by decide) (by decide) (by decide) (by decide),
   allocate_semantics.2.2 stAllocated 0 _ 0 0 (by decide)⟩

/-- C2: release on an unclaimed channel fails with the not-claimed
error and changes nothing; release on a claimed channel removes one
claim entry for this side and the local claim-map entry, answers
`released{status}` with `status="deleted"` exactly when the claim
multiset became empty (the Mailbox then being removed from the
partition, its subscribers signalled to close), `"waiting"` otherwise. -/
theorem release_semantics :
    (∀ (st : ServerState) (sid : Nat) (msg : Msg) (rx : Nat)
        (sess : Session) (a v : JVal),
      lookupA sid st.sessions = some sess → sess.app = some a →
      lookupA "type" msg = some (.str "release") →
      lookupA "channelid" msg = some v →
      claimedStr sess v = none →
      onMessage st sid msg rx
        = .ok st (ackPfx sid msg
            ++ [(sid, errorOut "must claim channel before releasing" msg)]) [])
    ∧ (∀ (st : ServerState) (sid : Nat) (msg : Msg) (rx : Nat)
        (sess : Session) (a : JVal) (c : String) (mb : Mailbox),
      lookupA sid st.sessions = some sess → sess.app = some a →
      lookupA "type" msg = some (.str "release") →
      lookupA "channelid" msg = some (.str c) → c ∈ sess.channels →
      lookupA c (st.getApp a).mailboxes = some mb →
      ((st.getApp a).mailboxes.map Prod.fst).Nodup →
      onMessage st sid msg rx
        = .ok
            ((st.setApp a
                (if (removeOne (sess.side.getD (.str "")) mb.claims).isEmpty then
                  ⟨removeA c (st.getApp a).mailboxes⟩
                else
                  ⟨setA c
                    { mb with
                      claims := removeOne (sess.side.getD (.str "")) mb.claims }
                    (st.getApp a).mailboxes⟩)).setSession sid
              { sess with channels := removeOne c sess.channels })
            (ackPfx sid msg
              ++ [(sid, releasedOut
                    (if (removeOne (sess.side.getD (.str "")) mb.claims).isEmpty
                     then "deleted" else "waiting"))])
            (if (removeOne (sess.side.getD (.str "")) mb.claims).isEmpty
             then mb.subscribers else [])
        ∧ ((removeOne (sess.side.getD (.str "")) mb.claims).isEmpty = true →
            lookupA c ((onMessage st sid msg rx).state.getApp a).mailboxes = none)
        ∧ ((removeOne (sess.side.getD (.str "")) mb.claims).isEmpty = false →
            lookupA c ((onMessage st sid msg rx).state.getApp a).mailboxes
              = some { mb with
                  claims := removeOne (sess.side.getD (.str "")) mb.claims })) := by
  constructor
  · intro st sid msg rx sess a v hs happ ht hcid hcl
    have hsess : st.getSessionD sid = sess := getSessionD_eq st sid sess hs
    unfold onMessage
    rw [ht]
    unfold dispatch
    simp [hsess, happ, handle_release, hcid, hcl]
  · intro st sid msg rx sess a c mb hs happ ht hcid hc hmb hnd
    have hsess : st.getSessionD sid = sess := getSessionD_eq st sid sess hs
    have h1 : onMessage st sid msg rx
        = .ok
            ((st.setApp a
                (if (removeOne (sess.side.getD (.str "")) mb.claims).isEmpty then
                  ⟨removeA c (st.getApp a).mailboxes⟩
                else
                  ⟨setA c
                    { mb with
                      claims := removeOne (sess.side.getD (.str "")) mb.claims }
                    (st.getApp a).mailboxes⟩)).setSession sid
              { sess with channels := removeOne c sess.channels })
            (ackPfx sid msg
              ++ [(sid, releasedOut
                    (if (removeOne (sess.side.getD (.str "")) mb.claims).isEmpty
                     then "deleted" else "waiting"))])
            (if (removeOne (sess.side.getD (.str "")) mb.claims).isEmpty
             then mb.subscribers else []) := by
      unfold onMessage
      rw [ht]
      unfold dispatch
      simp [hsess, happ, handle_release, hcid, claimedStr, hc, hmb]
    refine ⟨h1, ?_, ?_⟩
    · intro hE
      rw [h1]
      simp only [StepResult.state, getApp_setSession, getApp_setApp_self, hE,
        if_true]
      exact lookupA_removeA_self c (st.getApp a).mailboxes hnd
    · intro hE
      rw [h1]
      simp only [StepResult.state, getApp_setSession, getApp_setApp_self, hE,
        Bool.false_eq_true, if_false]
      exact lookupA_setA_self c _ (st.getApp a).mailboxes

/-- Witness for C2: both branches at concrete inputs — releasing an
unclaimed channel errors; the sole claimant's release deletes the
Mailbox and reports `"deleted"`. -/
theorem release_semantics_witness :
    (onMessage stBound 0 [("type", .str "release"), ("channelid", .str "zz")] 0
      = .ok stBound
          (ackPfx 0 [("type", .str "release"), ("channelid", .str "zz")]
            ++ [(0, errorOut "must claim channel before releasing"
                  [("type", .str "release"), ("channelid", .str "zz")])]) [])
    ∧ (onMessage stClaimed 0
        [("type", .str "release"), ("channelid", .str "ch")] 0
      = .ok
          ((stClaimed.setApp (.str "appA")
              (if (removeOne (sessClaimed.side.getD (.str "")) mbW.claims).isEmpty
               then ⟨removeA "ch" (stClaimed.getApp (.str "appA")).mailboxes⟩
               else
                ⟨setA "ch"
                  { mbW with
                    claims := removeOne (sessClaimed.side.getD (.str ""))
                      mbW.claims }
                  (stClaimed.getApp (.str "appA")).mailboxes⟩)).setSession 0
            { sessClaimed with channels := removeOne "ch" sessClaimed.channels })
          (ackPfx 0 [("type", .str "release"), ("channelid", .str "ch")]
            ++ [(0, releasedOut
                  (if (removeOne (sessClaimed.side.getD (.str ""))
                        mbW.claims).isEmpty
                   then "deleted" else "waiting"))])
          (if (removeOne (sessClaimed.side.getD (.str "")) mbW.claims).isEmpty
           then mbW.subscribers else [])) :=
  ⟨release_semantics.1 stBound 0 _ 0 sessBound (.str "appA") (.str "zz")
      (by decide) (by decide) (by decide) (by decide) (by decide),
   (release_semantics.2 stClaimed 0 _ 0 sessClaimed (.str "appA") "ch" mbW
      (by decide) (by decide) (by decide) (by decide) (by decide) (by decide)
      (by decide)).1⟩

/-- C6 counterexample: `list` answers with a response of type
`"channelids"` (payload key `"channelids"`), not type `"nameplates"` as
the claim states. -/
theorem list_type_cex :
    onMessage stBound 0 [("type", .str "list")] 0
      = .ok stBound
          [(0, ⟨"channelids", [("channelids", OVal.arr [])]⟩)] []
    ∧ ((onMessage stBound 0 [("type", .str "list")] 0).outs.filter
        (fun o => o.2.mtype == "nameplates")) = [] := by
  decide

/-- C6 amended: for every bound session, `list` leaves the state
unchanged and answers with a single response of type `"channelids"`
whose payload is exactly the set of channel ids of this session's app
partition whose claim multiset has exactly one distinct side, sorted
ascending. -/
theorem list_waiting_channels
    (st : ServerState) (sid : Nat) (msg : Msg) (rx : Nat)
    (sess : Session) (a : JVal)
    (hs : lookupA sid st.sessions = some sess)
    (happ : sess.app = some a)
    (ht : lookupA "type" msg = some (.str "list")) :
    onMessage st sid msg rx
      = .ok st (ackPfx sid msg
          ++ [(sid, channelidsOut (sortStr (st.getApp a).get_claimed))]) []
    ∧ List.Sorted (· ≤ ·) (sortStr (st.getApp a).get_claimed)
    ∧ (∀ c, c ∈ sortStr (st.getApp a).get_claimed
        ↔ ∃ mb, (c, mb) ∈ (st.getApp a).mailboxes
            ∧ mb.claims.dedup.length = 1) := by
  have hsess : st.getSessionD sid = sess := getSessionD_eq st sid sess hs
  refine ⟨?_, ?_, ?_⟩
  · unfold onMessage
    rw [ht]
    unfold dispatch
    simp [hsess, happ, handle_list]
  · exact List.sorted_insertionSort _ _
  · intro c
    unfold sortStr
    rw [(List.perm_insertionSort _ _).mem_iff]
    simp only [App.get_claimed, List.mem_map, List.mem_filter]
    constructor
    · rintro ⟨⟨c', mb⟩, ⟨hmem', hlen⟩, rfl⟩
      exact ⟨mb, hmem', by simpa using hlen⟩
    · rintro ⟨mb, hmem', hlen⟩
      exact ⟨(c, mb), ⟨hmem', by simpa using hlen⟩, rfl⟩

/-- Witness for amended C6: one waiting channel is listed. -/
theorem list_waiting_channels_witness :
    onMessage stClaimed 0 [("type", .str "list")] 0
      = .ok stClaimed (ackPfx 0 [("type", .str "list")]
          ++ [(0, channelidsOut
                (sortStr (stClaimed.getApp (.str "appA")).get_claimed))]) [] :=
  (list_waiting_channels stClaimed 0 _ 0 sessClaimed (.str "appA")
    (by decide) (by decide) (by decide)).1

/-- No output of the list is an `error` response. -/
def noErrorOuts (out : Outs) : Prop := ∀ p ∈ out, p.2.mtype ≠ "error"

theorem ping_exn {st : ServerState} {sid : Nat} {msg : Msg}
    {e : String} {st₂ : ServerState} {out₂ : Outs} {cl₂ : List Nat}
    (h : handle_ping st sid msg = .exn (.error e) st₂ out₂ cl₂) :
    st₂ = st ∧ out₂ = [] ∧ cl₂ = [] := by
  unfold handle_ping at h
  cases hp : lookupA "ping" msg <;> simp [hp] at h <;> simp_all

theorem bind_exn {st : ServerState} {sid : Nat} {msg : Msg}
    {e : String} {st₂ : ServerState} {out₂ : Outs} {cl₂ : List Nat}
    (h : handle_bind st sid msg = .exn (.error e) st₂ out₂ cl₂) :
    st₂ = st ∧ out₂ = [] ∧ cl₂ = [] := by
  unfold handle_bind at h
  by_cases hb : (st.getSessionD sid).app.isSome
      || (st.getSessionD sid).side.isSome <;> simp only [hb] at h
  · simp at h
    simp_all
  · simp only [Bool.false_eq_true, if_false] at h
    cases ha : lookupA "appid" msg <;> simp [ha] at h
    · simp_all
    · cases hs2 : lookupA "side" msg <;> simp [hs2] at h
      simp_all

theorem allocate_exn {st : ServerState} {sid : Nat}
    {e : String} {st₂ : ServerState} {out₂ : Outs} {cl₂ : List Nat}
    (h : handle_allocate st sid = .exn (.error e) st₂ out₂ cl₂) :
    st₂ = st ∧ out₂ = [] ∧ cl₂ = [] := by
  unfold handle_allocate at h
  by_cases hda : (st.getSessionD sid).did_allocate <;> simp [hda] at h
  simp_all

theorem claim_exn {st : ServerState} {sid : Nat} {msg : Msg}
    {e : String} {st₂ : ServerState} {out₂ : Outs} {cl₂ : List Nat}
    (h : handle_claim st sid msg = .exn (.error e) st₂ out₂ cl₂) :
    st₂ = st ∧ out₂ = [] ∧ cl₂ = [] := by
  unfold handle_claim at h
  cases hcid : lookupA "channelid" msg with
  | none => simp [hcid] at h; simp_all
  | some v =>
    cases v with
    | num n => simp [hcid] at h
    | str c =>
      by_cases hc : c ∈ (st.getSessionD sid).channels <;> simp [hcid, hc] at h

theorem watch_exn {st : ServerState} {sid : Nat} {msg : Msg}
    {e : String} {st₂ : ServerState} {out₂ : Outs} {cl₂ : List Nat}
    (h : handle_watch st sid msg = .exn (.error e) st₂ out₂ cl₂) :
    st₂ = st ∧ out₂ = [] ∧ cl₂ = [] := by
  unfold handle_watch at h
  cases hcid : lookupA "channelid" msg with
  | none => simp [hcid] at h
  | some v =>
    cases hcl : claimedStr (st.getSessionD sid) v with
    | none => simp [hcid, hcl] at h; simp_all
    | some c => simp [hcid, hcl] at h

theorem add_exn {st : ServerState} {sid : Nat} {msg : Msg} {rx : Nat}
    {e : String} {st₂ : ServerState} {out₂ : Outs} {cl₂ : List Nat}
    (h : handle_add st sid msg rx = .exn (.error e) st₂ out₂ cl₂) :
    st₂ = st ∧ out₂ = [] ∧ cl₂ = [] := by
  unfold handle_add at h
  cases hcid : lookupA "channelid" msg with
  | none => simp [hcid] at h
  | some v =>
    cases hcl : claimedStr (st.getSessionD sid) v with
    | none => simp [hcid, hcl] at h; simp_all
    | some c =>
      cases hph : lookupA "phase" msg with
      | none => simp [hcid, hcl, hph] at h; simp_all
      | some ph =>
        cases hbd : lookupA "body" msg with
        | none => simp [hcid, hcl, hph, hbd] at h; simp_all
        | some bd => simp [hcid, hcl, hph, hbd] at h

theorem release_exn {st : ServerState} {sid : Nat} {msg : Msg}
    {e : String} {st₂ : ServerState} {out₂ : Outs} {cl₂ : List Nat}
    (h : handle_release st sid msg = .exn (.error e) st₂ out₂ cl₂) :
    st₂ = st ∧ out₂ = [] ∧ cl₂ = [] := by
  unfold handle_release at h
  cases hcid : lookupA "channelid" msg with
  | none => simp [hcid] at h
  | some v =>
    cases hcl : claimedStr (st.getSessionD sid) v with
    | none => simp [hcid, hcl] at h; simp_all
    | some c => simp [hcid, hcl] at h

theorem dispatch_exn_error {st : ServerState} {sid : Nat} {msg : Msg}
    {rx : Nat} {tv : JVal} {e : String} {st₂ : ServerState} {out₂ : Outs}
    {cl₂ : List Nat}
    (h : dispatch st sid msg rx tv = .exn (.error e) st₂ out₂ cl₂) :
    st₂ = st ∧ out₂ = [] ∧ cl₂ = [] := by
  unfold dispatch at h
  split_ifs at h
  · exact ping_exn h
  · exact bind_exn h
  · simp at h; simp_all
  · exact absurd h (by unfold handle_list; simp)
  · exact allocate_exn h
  · exact claim_exn h
  · exact watch_exn h
  · exact add_exn h
  · exact release_exn h
  · simp at h; simp_all

theorem ping_ok {st : ServerState} {sid : Nat} {msg : Msg}
    {st₂ : ServerState} {out₂ : Outs} {cl₂ : List Nat}
    (h : handle_ping st sid msg = .ok st₂ out₂ cl₂) : noErrorOuts out₂ := by
  unfold handle_ping at h
  cases hp : lookupA "ping" msg <;> simp [hp] at h
  intro p hpp
  rw [← h.2.1] at hpp
  simp at hpp
  subst hpp
  simp [pongOut]

theorem bind_ok {st : ServerState} {sid : Nat} {msg : Msg}
    {st₂ : ServerState} {out₂ : Outs} {cl₂ : List Nat}
    (h : handle_bind st sid msg = .ok st₂ out₂ cl₂) : noErrorOuts out₂ := by
  unfold handle_bind at h
  by_cases hb : (st.getSessionD sid).app.isSome
      || (st.getSessionD sid).side.isSome <;> simp only [hb] at h
  · simp at h
  · simp only [Bool.false_eq_true, if_false] at h
    cases ha : lookupA "appid" msg <;> simp [ha] at h
    cases hs2 : lookupA "side" msg <;> simp [hs2] at h
    intro p hpp
    rw [h.2.1] at hpp
    simp at hpp

theorem list_ok {st : ServerState} {sid : Nat}
    {st₂ : ServerState} {out₂ : Outs} {cl₂ : List Nat}
    (h : handle_list st sid = .ok st₂ out₂ cl₂) : noErrorOuts out₂ := by
  unfold handle_list at h
  simp at h
  intro p hpp
  rw [← h.2.1] at hpp
  simp at hpp
  subst hpp
  simp [channelidsOut]

theorem allocate_ok {st : ServerState} {sid : Nat}
    {st₂ : ServerState} {out₂ : Outs} {cl₂ : List Nat}
    (h : handle_allocate st sid = .ok st₂ out₂ cl₂) : noErrorOuts out₂ := by
  unfold handle_allocate at h
  by_cases hda : (st.getSessionD sid).did_allocate <;> simp [hda] at h
  intro p hpp
  rw [← h.2.1] at hpp
  simp at hpp
  subst hpp
  simp [allocatedOut]

theorem claim_ok {st : ServerState} {sid : Nat} {msg : Msg}
    {st₂ : ServerState} {out₂ : Outs} {cl₂ : List Nat}
    (h : handle_claim st sid msg = .ok st₂ out₂ cl₂) : noErrorOuts out₂ := by
  unfold handle_claim at h
  cases hcid : lookupA "channelid" msg with
  | none => simp [hcid] at h
  | some v =>
    cases v with
    | num n => simp [hcid] at h
    | str c =>
      by_cases hc : c ∈ (st.getSessionD sid).channels <;>
          simp [hcid, hc] at h <;>
        (intro p hpp
         rw [h.2.1] at hpp
         simp at hpp)

theorem watch_ok {st : ServerState} {sid : Nat} {msg : Msg}
    {st₂ : ServerState} {out₂ : Outs} {cl₂ : List Nat}
    (h : handle_watch st sid msg = .ok st₂ out₂ cl₂) : noErrorOuts out₂ := by
  unfold handle_watch at h
  cases hcid : lookupA "channelid" msg with
  | none => simp [hcid] at h
  | some v =>
    cases hcl : claimedStr (st.getSessionD sid) v with
    | none => simp [hcid, hcl] at h
    | some c =>
      simp [hcid, hcl] at h
      intro p hp
      rw [← h.2.1] at hp
      obtain ⟨m, _, rfl⟩ := List.mem_map.mp hp
      simp [messageOut]

theorem add_ok {st : ServerState} {sid : Nat} {msg : Msg} {rx : Nat}
    {st₂ : ServerState} {out₂ : Outs} {cl₂ : List Nat}
    (h : handle_add st sid msg rx = .ok st₂ out₂ cl₂) : noErrorOuts out₂ := by
  unfold handle_add at h
  cases hcid : lookupA "channelid" msg with
  | none => simp [hcid] at h
  | some v =>
    cases hcl : claimedStr (st.getSessionD sid) v with
    | none => simp [hcid, hcl] at h
    | some c =>
      cases hph : lookupA "phase" msg with
      | none => simp [hcid, hcl, hph] at h
      | some ph =>
        cases hbd : lookupA "body" msg with
        | none => simp [hcid, hcl, hph, hbd] at h
        | some bd =>
          simp [hcid, hcl, hph, hbd] at h
          intro p hp
          rw [← h.2.1] at hp
          obtain ⟨w, _, rfl⟩ := List.mem_map.mp hp
          simp [messageOut]

theorem release_ok {st : ServerState} {sid : Nat} {msg : Msg}
    {st₂ : ServerState} {out₂ : Outs} {cl₂ : List Nat}
    (h : handle_release st sid msg = .ok st₂ out₂ cl₂) : noErrorOuts out₂ := by
  unfold handle_release at h
  cases hcid : lookupA "channelid" msg with
  | none => simp [hcid] at h
  | some v =>
    cases hcl : claimedStr (st.getSessionD sid) v with
    | none => simp [hcid, hcl] at h
    | some c =>
      simp [hcid, hcl] at h
      intro p hpp
      rw [← h.2.1] at hpp
      simp at hpp
      subst hpp
      simp [releasedOut]

theorem dispatch_ok_no_error {st : ServerState} {sid : Nat} {msg : Msg}
    {rx : Nat} {tv : JVal} {st₂ : ServerState} {out₂ : Outs} {cl₂ : List Nat}
    (h : dispatch st sid msg rx tv = .ok st₂ out₂ cl₂) : noErrorOuts out₂ := by
  unfold dispatch at h
  split_ifs at h
  · exact ping_ok h
  · exact bind_ok h
  · exact list_ok h
  · exact allocate_ok h
  · exact claim_ok h
  · exact watch_ok h
  · exact add_ok h
  · exact release_ok h

/-- C8: error atomicity — whenever a command is answered with an
`error{error, orig}` response, the entire server state (all sessions'
`appId`/`side`/allocation flag/claim maps, and every partition's
mailboxes) is exactly what it was before the command, and no close
signal is emitted: no partial mutation precedes validation. -/
theorem error_atomicity
    (st : ServerState) (sid : Nat) (msg : Msg) (rx : Nat)
    (st' : ServerState) (out : Outs) (cl : List Nat)
    (h : onMessage st sid msg rx = .ok st' out cl)
    (he : ∃ e, (sid, errorOut e msg) ∈ out) :
    st' = st ∧ cl = [] := by
  obtain ⟨e0, he⟩ := he
  unfold onMessage at h
  cases ht : lookupA "type" msg with
  | none =>
    rw [ht] at h
    simp at h
    refine ⟨?_, ?_⟩ <;> simp_all
  | some tv =>
    rw [ht] at h
    cases hd : dispatch st sid msg rx tv with
    | ok st₂ out₂ cl₂ =>
      simp only [hd] at h
      simp at h
      obtain ⟨h1, h2, h3⟩ := h
      rw [← h2] at he
      rcases List.mem_append.mp he with hm | hm
      · cases hid : lookupA "id" msg <;> simp [ackPfx, hid] at hm
        exact absurd hm (by simp [errorOut, ackOut])
      · exact absurd rfl ((dispatch_ok_no_error hd) _ hm)
    | exn pe st₂ out₂ cl₂ =>
      cases pe with
      | error e2 =>
        simp only [hd] at h
        simp at h
        obtain ⟨h1, h2, h3⟩ := h
        obtain ⟨hst, hout, hcl⟩ := dispatch_exn_error hd
        refine ⟨?_, ?_⟩ <;> simp_all
      | keyError k => simp only [hd] at h; simp at h
      | assertionError => simp only [hd] at h; simp at h

/-- Witness for C8: a double-bind error leaves the state untouched. -/
theorem error_atomicity_witness :
    stBound = stBound ∧ ([] : List Nat) = [] :=
  error_atomicity stBound 0
    [("type", .str "bind"), ("appid", .str "x"), ("side", .str "y")] 0
    stBound
    [(0, errorOut "already bound"
      [("type", .str "bind"), ("appid", .str "x"), ("side", .str "y")])] []
    (by decide) ⟨"already bound", by decide⟩

theorem errorResponses_ack_err (sid : Nat) (msg : Msg) (e : String) :
    errorResponses sid (ackPfx sid msg ++ [(sid, errorOut e msg)])
      = [errorOut e msg] := by
  cases hid : lookupA "id" msg <;>
    simp [ackPfx, hid, errorResponses, outputsTo, errorOut, ackOut]

theorem respondsError_of_exn (st : ServerState) (sid : Nat) (msg : Msg)
    (rx : Nat) (tv : JVal) (e : String)
    (ht : lookupA "type" msg = some tv)
    (hd : dispatch st sid msg rx tv = .exn (.error e) st [] []) :
    respondsError st sid msg rx := by
  refine ⟨st, ackPfx sid msg ++ [(sid, errorOut e msg)], e, ?_,
    errorResponses_ack_err sid msg e⟩
  unfold onMessage
  rw [ht]
  simp [hd]

/-- C3 counterexample: a `watch` from a bound session with the required
`channelid` field missing does not get an `error` response — the
`KeyError` escapes the handler uncaught (tearing the connection down,
unlike every caught protocol error). -/
theorem error_handling_cex :
    onMessage stBound 0 [("type", .str "watch")] 0
      = .crash stBound [] (.keyError "channelid")
    ∧ ¬ respondsError stBound 0 [("type", .str "watch")] 0 := by
  constructor
  · decide
  · rintro ⟨st', out, e, h, -⟩
    rw [show onMessage stBound 0 [("type", .str "watch")] 0
        = .crash stBound [] (.keyError "channelid") from by decide] at h
    exact StepResult.noConfusion h

/-- C3 amended: each of the following protocol violations is answered
with exactly one recoverable `error{error, orig}` response echoing the
offending message, without terminating the connection: missing `type`;
unknown `type`; any command other than `ping`/`bind` while unbound;
`ping` without `ping`; double bind; `bind` without `appid`/`side`;
double allocate; `claim` without `channelid`; `watch`/`add`/`release`
on a channel id not claimed by this session; `add` on a claimed channel
without `phase` or `body`.  (A missing `channelid` on `watch`, `add` or
`release` instead raises an uncaught exception — see the
counterexample.) -/
theorem error_handling_recoverable :
    (∀ (st : ServerState) (sid : Nat) (msg : Msg) (rx : Nat),
      lookupA "type" msg = none → respondsError st sid msg rx)
    ∧ (∀ (st : ServerState) (sid : Nat) (msg : Msg) (rx : Nat) (tv : JVal),
      lookupA "type" msg = some tv →
      (∀ s, tv = .str s →
        s ∉ ["ping", "bind", "list", "allocate", "claim", "watch", "add",
             "release"]) →
      respondsError st sid msg rx)
    ∧ (∀ (st : ServerState) (sid : Nat) (msg : Msg) (rx : Nat) (s : String),
      lookupA "type" msg = some (.str s) →
      s ∈ ["list", "allocate", "claim", "watch", "add", "release"] →
      (st.getSessionD sid).app = none → respondsError st sid msg rx)
    ∧ (∀ (st : ServerState) (sid : Nat) (msg : Msg) (rx : Nat),
      lookupA "type" msg = some (.str "ping") → lookupA "ping" msg = none →
      respondsError st sid msg rx)
    ∧ (∀ (st : ServerState) (sid : Nat) (msg : Msg) (rx : Nat) (a : JVal),
      lookupA "type" msg = some (.str "bind") →
      (st.getSessionD sid).app = some a → respondsError st sid msg rx)
    ∧ (∀ (st : ServerState) (sid : Nat) (msg : Msg) (rx : Nat),
      lookupA "type" msg = some (.str "bind") →
      (st.getSessionD sid).app = none → (st.getSessionD sid).side = none →
      lookupA "appid" msg = none → respondsError st sid msg rx)
    ∧ (∀ (st : ServerState) (sid : Nat) (msg : Msg) (rx : Nat) (av : JVal),
      lookupA "type" msg = some (.str "bind") →
      (st.getSessionD sid).app = none → (st.getSessionD sid).side = none →
      lookupA "appid" msg = some av → lookupA "side" msg = none →
      respondsError st sid msg rx)
    ∧ (∀ (st : ServerState) (sid : Nat) (msg : Msg) (rx : Nat) (a : JVal),
      lookupA "type" msg = some (.str "allocate") →
      (st.getSessionD sid).app = some a →
      (st.getSessionD sid).did_allocate = true → respondsError st sid msg rx)
    ∧ (∀ (st : ServerState) (sid : Nat) (msg : Msg) (rx : Nat) (a : JVal),
      lookupA "type" msg = some (.str "claim") →
      (st.getSessionD sid).app = some a →
      lookupA "channelid" msg = none → respondsError st sid msg rx)
    ∧ (∀ (st : ServerState) (sid : Nat) (msg : Msg) (rx : Nat) (a v : JVal)
        (s : String),
      lookupA "type" msg = some (.str s) →
      s ∈ ["watch", "add", "release"] →
      (st.getSessionD sid).app = some a →
      lookupA "channelid" msg = some v →
      claimedStr (st.getSessionD sid) v = none → respondsError st sid msg rx)
    ∧ (∀ (st : ServerState) (sid : Nat) (msg : Msg) (rx : Nat) (a : JVal)
        (c : String),
      lookupA "type" msg = some (.str "add") →
      (st.getSessionD sid).app = some a →
      lookupA "channelid" msg = some (.str c) →
      c ∈ (st.getSessionD sid).channels →
      lookupA "phase" msg = none → respondsError st sid msg rx)
    ∧ (∀ (st : ServerState) (sid : Nat) (msg : Msg) (rx : Nat) (a ph : JVal)
        (c : String),
      lookupA "type" msg = some (.str "add") →
      (st.getSessionD sid).app = some a →
      lookupA "channelid" msg = some (.str c) →
      c ∈ (st.getSessionD sid).channels →
      lookupA "phase" msg = some ph → lookupA "body" msg = none →
      respondsError st sid msg rx) := by
  refine ⟨?_, ?_, ?_, ?_, ?_, ?_, ?_, ?_, ?_, ?_, ?_, ?_⟩
  · intro st sid msg rx ht
    exact ⟨st, [(sid, errorOut "missing 'type'" msg)], "missing 'type'",
      by unfold onMessage; rw [ht],
      by simp [errorResponses, outputsTo, errorOut]⟩
  · intro st sid msg rx tv ht hunk
    by_cases hb : (st.getSessionD sid).app.isNone
    · refine respondsError_of_exn st sid msg rx tv "Must bind first" ht ?_
      unfold dispatch
      rcases tv with s | n
      · have hmem := hunk s rfl
        simp at hmem
        obtain ⟨n1, n2, n3, n4, n5, n6, n7, n8⟩ := hmem
        simp [n1, n2, hb]
      · simp [hb]
    · refine respondsError_of_exn st sid msg rx tv "Unknown type" ht ?_
      unfold dispatch
      rcases tv with s | n
      · have hmem := hunk s rfl
        simp at hmem
        obtain ⟨n1, n2, n3, n4, n5, n6, n7, n8⟩ := hmem
        simp [n1, n2, n3, n4, n5, n6, n7, n8, hb]
      · simp [hb]
  · intro st sid msg rx s ht hmem hb
    have hb' : (st.getSessionD sid).app.isNone := by simp [hb]
    refine respondsError_of_exn st sid msg rx (.str s) "Must bind first" ht ?_
    fin_cases hmem <;> (unfold dispatch; simp [hb'])
  · intro st sid msg rx ht hp
    refine respondsError_of_exn st sid msg rx (.str "ping")
      "ping requires 'ping'" ht ?_
    unfold dispatch
    simp [handle_ping, hp]
  · intro st sid msg rx a ht happ
    refine respondsError_of_exn st sid msg rx (.str "bind") "already bound"
      ht ?_
    unfold dispatch
    simp [handle_bind, happ]
  · intro st sid msg rx ht happ hside ha
    refine respondsError_of_exn st sid msg rx (.str "bind")
      "bind requires 'appid'" ht ?_
    unfold dispatch
    simp [handle_bind, happ, hside, ha]
  · intro st sid msg rx av ht happ hside ha hs2
    refine respondsError_of_exn st sid msg rx (.str "bind")
      "bind requires 'side'" ht ?_
    unfold dispatch
    simp [handle_bind, happ, hside, ha, hs2]
  · intro st sid msg rx a ht happ hda
    refine respondsError_of_exn st sid msg rx (.str "allocate")
      "You already allocated one channel, don't be greedy" ht ?_
    unfold dispatch
    simp [handle_allocate, happ, hda]
  · intro st sid msg rx a ht happ hcid
    refine respondsError_of_exn st sid msg rx (.str "claim")
      "claim requires 'channelid'" ht ?_
    unfold dispatch
    simp [handle_claim, happ, hcid]
  · intro st sid msg rx a v s ht hmem happ hcid hcl
    fin_cases hmem
    · refine respondsError_of_exn st sid msg rx (.str "watch")
        "must claim channel before watching" ht ?_
      unfold dispatch
      simp [handle_watch, happ, hcid, hcl]
    · refine respondsError_of_exn st sid msg rx (.str "add")
        "must claim channel before adding" ht ?_
      unfold dispatch
      simp [handle_add, happ, hcid, hcl]
    · refine respondsError_of_exn st sid msg rx (.str "release")
        "must claim channel before releasing" ht ?_
      unfold dispatch
      simp [handle_release, happ, hcid, hcl]
  · intro st sid msg rx a c ht happ hcid hc hph
    refine respondsError_of_exn st sid msg rx (.str "add") "missing 'phase'"
      ht ?_
    unfold dispatch
    simp [handle_add, happ, hcid, claimedStr, hc, hph]
  · intro st sid msg rx a ph c ht happ hcid hc hph hbd
    refine respondsError_of_exn st sid msg rx (.str "add") "missing 'body'"
      ht ?_
    unfold dispatch
    simp [handle_add, happ, hcid, claimedStr, hc, hph, hbd]

/-- Witness for amended C3: a missing `type`, an unknown `type`, and an
unbound `list` each draw a single recoverable `error` response. -/
theorem error_handling_recoverable_witness :
    respondsError stUnbound 0 [("id", .num 1)] 0
    ∧ respondsError stBound 0 [("type", .str "frobnicate")] 0
    ∧ respondsError stUnbound 0 [("type", .str "list")] 0 :=
  ⟨error_handling_recoverable.1 stUnbound 0 _ 0 (by decide),
   error_handling_recoverable.2.1 stBound 0 _ 0 (.str "frobnicate") (by decide)
     (by intro s hs hmem
         cases hs
         simp at hmem),
   error_handling_recoverable.2.2.1 stUnbound 0 _ 0 "list" (by decide)
     (by simp) (by decide)⟩

/-- C10: in `add`, the claimed-channel check precedes the field checks:
an `add` on an unclaimed channel id yields the not-claimed error even
when `phase`/`body` are absent, and the missing-`phase`/missing-`body`
errors arise (in that order) only on a claimed channel. -/
theorem add_not_claimed_precedes_field_checks :
    (∀ (st : ServerState) (sid : Nat) (msg : Msg) (rx : Nat)
        (sess : Session) (a v : JVal),
      lookupA sid st.sessions = some sess → sess.app = some a →
      lookupA "type" msg = some (.str "add") →
      lookupA "channelid" msg = some v →
      claimedStr sess v = none →
      onMessage st sid msg rx
        = .ok st (ackPfx sid msg
            ++ [(sid, errorOut "must claim channel before adding" msg)]) [])
    ∧ (∀ (st : ServerState) (sid : Nat) (msg : Msg) (rx : Nat)
        (sess : Session) (a : JVal) (c : String),
      lookupA sid st.sessions = some sess → sess.app = some a →
      lookupA "type" msg = some (.str "add") →
      lookupA "channelid" msg = some (.str c) → c ∈ sess.channels →
      lookupA "phase" msg = none →
      onMessage st sid msg rx
        = .ok st (ackPfx sid msg
            ++ [(sid, errorOut "missing 'phase'" msg)]) [])
    ∧ (∀ (st : ServerState) (sid : Nat) (msg : Msg) (rx : Nat)
        (sess : Session) (a : JVal) (c : String) (ph : JVal),
      lookupA sid st.sessions = some sess → sess.app = some a →
      lookupA "type" msg = some (.str "add") →
      lookupA "channelid" msg = some (.str c) → c ∈ sess.channels →
      lookupA "phase" msg = some ph →
      lookupA "body" msg = none →
      onMessage st sid msg rx
        = .ok st (ackPfx sid msg
            ++ [(sid, errorOut "missing 'body'" msg)]) []) := by
  refine ⟨?_, ?_, ?_⟩
  · intro st sid msg rx sess a v hs happ ht hcid hcl
    have hsess : st.getSessionD sid = sess := getSessionD_eq st sid sess hs
    unfold onMessage
    rw [ht]
    unfold dispatch
    simp [hsess, happ, handle_add, hcid, hcl]
  · intro st sid msg rx sess a c hs happ ht hcid hc hph
    have hsess : st.getSessionD sid = sess := getSessionD_eq st sid sess hs
    unfold onMessage
    rw [ht]
    unfold dispatch
    simp [hsess, happ, handle_add, hcid, claimedStr, hc, hph]
  · intro st sid msg rx sess a c ph hs happ ht hcid hc hph hbd
    have hsess : st.getSessionD sid = sess := getSessionD_eq st sid sess hs
    unfold onMessage
    rw [ht]
    unfold dispatch
    simp [hsess, happ, handle_add, hcid, claimedStr, hc, hph, hbd]

/-- Witness for C10: all three branches at concrete inputs — an `add`
missing `phase` and `body` on an unclaimed channel gets the not-claimed
error; on a claimed channel it gets missing-`phase`, then with a phase
it gets missing-`body`. -/
theorem add_not_claimed_precedes_field_checks_witness :
    (onMessage stBound 0 [("type", .str "add"), ("channelid", .str "zz")] 0
      = .ok stBound (ackPfx 0 [("type", .str "add"), ("channelid", .str "zz")]
          ++ [(0, errorOut "must claim channel before adding"
                [("type", .str "add"), ("channelid", .str "zz")])]) [])
    ∧ (onMessage stClaimed 0 [("type", .str "add"), ("channelid", .str "ch")] 0
      = .ok stClaimed
          (ackPfx 0 [("type", .str "add"), ("channelid", .str "ch")]
            ++ [(0, errorOut "missing 'phase'"
                  [("type", .str "add"), ("channelid", .str "ch")])]) [])
    ∧ (onMessage stClaimed 0
        [("type", .str "add"), ("channelid", .str "ch"), ("phase", .str "p")] 0
      = .ok stClaimed
          (ackPfx 0
              [("type", .str "add"), ("channelid", .str "ch"), ("phase", .str "p")]
            ++ [(0, errorOut "missing 'body'"
                  [("type", .str "add"), ("channelid", .str "ch"),
                   ("phase", .str "p")])]) []) :=
  ⟨add_not_claimed_precedes_field_checks.1 stBound 0 _ 0 sessBound
      (.str "appA") (.str "zz") (by decide) (by decide) (by decide) (by decide)
      (by decide),
   add_not_claimed_precedes_field_checks.2.1 stClaimed 0 _ 0 sessClaimed
      (.str "appA") "ch" (by decide) (by decide) (by decide) (by decide)
      (by decide) (by decide),
   add_not_claimed_precedes_field_checks.2.2 stClaimed 0 _ 0 sessClaimed
      (.str "appA") "ch" (.str "p") (by decide) (by decide) (by decide)
      (by decide) (by decide) (by decide) (by decide)⟩

end Wormhole
